import Mathlib

/-!
Verification development for the simulation core of a tile-based maze chase
game (`pacman.py`).  The definitions below are a shallow embedding of the
program: continuous positions become rationals, Python ints become `Int`/`Nat`,
Python's `int()` truncation and `//` floor division become explicit `Int`
operations, and the per-frame simulation block of `main` becomes the pure
state-transition function `tick`.
-/

/-! ## Constants (from the top of `pacman.py`) -/

def SCREEN_WIDTH : ℕ := 800
def SCREEN_HEIGHT : ℕ := 600

def PACMAN_SPEED : ℤ := 100
def GHOST_SPEED : ℤ := 90
def VULNERABLE_SPEED : ℤ := 70
def POWER_DURATION : ℚ := 7
def START_LIVES : ℤ := 3
def DOT_SCORE : ℤ := 10
def POWER_SCORE : ℤ := 50
def GHOST_SCORE : ℤ := 200

/-- The maze layout, copied verbatim from `MAZE_LAYOUT` in the source. -/
def MAZE_LAYOUT : List String := [
    "1111111111111111111111111111",
    "1222222222111222222222222221",
    "1211112112111211112111111121",
    "1320002112222211002110000121",
    "1211112112111211112111111121",
    "1222222222222222222222222221",
    "121111211111H1111112111111121",
    "1211112111111111112111111121",
    "1222222222111222222222222221",
    "1111112111111111111112111111",
    "0000012112222222222112110000",
    "1111012112111111112112111111",
    "1222212112133333312112222221",
    "1111012112111111112112011111",
    "0000012112222222222112000000",
    "1111112111111111111112111111",
    "1222222222111222222222222221",
    "1211112112111211112111111121",
    "1320002112222211002110000121",
    "1211112112111211112111111121",
    "1222222222222222222222222221",
    "121111211111H1111112111111121",
    "1211112111111111112111111121",
    "1222222222111222222222222221",
    "1111111111111111111111111111",
    "1000000000000000000000000001",
    "1333333333333333333333333331",
    "1222222222222222222222222221",
    "1211111111111111111111111121",
    "1222222222222222222222222221",
    "1111111111111111111111111111"]

/-- The maze rows as lists of characters (for indexed access). -/
def mazeRows : List (List Char) := MAZE_LAYOUT.map (fun s => s.data)

def ROWS : ℕ := MAZE_LAYOUT.length

/-- Length of the first row (`len(MAZE_LAYOUT[0])` in the source). -/
def COLS : ℕ := (mazeRows.getD 0 []).length

/-- Tile size: `min(SCREEN_WIDTH // COLS, SCREEN_HEIGHT // ROWS)`. -/
def TILE_SIZE : ℕ := min (SCREEN_WIDTH / COLS) (SCREEN_HEIGHT / ROWS)

def MAZE_WIDTH : ℕ := COLS * TILE_SIZE
def MAZE_HEIGHT : ℕ := ROWS * TILE_SIZE
def OFFSET_X : ℕ := (SCREEN_WIDTH - MAZE_WIDTH) / 2
def OFFSET_Y : ℕ := (SCREEN_HEIGHT - MAZE_HEIGHT) / 2

/-! ## Maze queries -/

/-- Character of the maze at column `c`, row `r` (natural-number indices);
a blank stands for "out of range" and is never produced by in-range access. -/
def mazeCharN (c r : ℕ) : Char := (mazeRows.getD r []).getD c ' '

/-- Character of the maze at integer coordinates. -/
def mazeCharZ (c r : ℤ) : Char :=
  if 0 ≤ c ∧ 0 ≤ r then mazeCharN c.toNat r.toNat else ' '

/-- Embeds `is_wall`: walls and the door block; out of bounds counts as wall. -/
def is_wall (c r : ℤ) : Bool :=
  if 0 ≤ r ∧ r < (ROWS : ℤ) ∧ 0 ≤ c ∧ c < (COLS : ℤ) then
    mazeCharZ c r == '1' || mazeCharZ c r == 'H'
  else true

/-- Embeds `is_door`. -/
def is_door (c r : ℤ) : Bool :=
  if 0 ≤ r ∧ r < (ROWS : ℤ) ∧ 0 ≤ c ∧ c < (COLS : ℤ) then
    mazeCharZ c r == 'H'
  else false

/-- Embeds `is_inside_grid`. -/
def is_inside_grid (c r : ℤ) : Bool :=
  decide (0 ≤ r) && decide (r < (ROWS : ℤ)) && decide (0 ≤ c) && decide (c < (COLS : ℤ))

/-- Per-cell blocking test used by `hits_wall` (the characters `1` and `H`). -/
def blocksNormal (c r : ℤ) : Bool := mazeCharZ c r == '1' || mazeCharZ c r == 'H'

/-- Per-cell blocking test used by `hits_wall_eyes` (the character `1` only). -/
def blocksEyes (c r : ℤ) : Bool := mazeCharZ c r == '1'

/-! ## Geometry -/

/-- Embeds `grid_to_world`: the pixel center of a cell. -/
def grid_to_world (c r : ℤ) : ℤ × ℤ :=
  ((OFFSET_X : ℤ) + c * TILE_SIZE + (TILE_SIZE / 2 : ℕ),
   (OFFSET_Y : ℤ) + r * TILE_SIZE + (TILE_SIZE / 2 : ℕ))

/-- A pygame rectangle: left, top, width, height (all Python ints). -/
structure PRect where
  left : ℤ
  top : ℤ
  w : ℤ
  h : ℤ
deriving DecidableEq, Repr

/-- Embeds `rect_for_cell`. -/
def rect_for_cell (c r : ℤ) : PRect :=
  ⟨(OFFSET_X : ℤ) + c * TILE_SIZE, (OFFSET_Y : ℤ) + r * TILE_SIZE,
   (TILE_SIZE : ℤ), (TILE_SIZE : ℤ)⟩

/-- Embeds pygame's `Rect.colliderect` overlap test (strict overlap; rects that
merely touch, or have zero width or height, do not collide). -/
def colliderect (a b : PRect) : Bool :=
  decide (a.left < b.left + b.w) && decide (a.left + a.w > b.left) &&
  decide (a.top < b.top + b.h) && decide (a.top + a.h > b.top)

/-- Python's `int()` applied to a rational: truncation toward zero. -/
def pyInt (q : ℚ) : ℤ := Int.tdiv q.num q.den

/-- Python's floor of a rational (`//` on floats followed by `int()`). -/
def qfloor (q : ℚ) : ℤ := Int.fdiv q.num q.den

/-- Integer range `a, a+1, ..., b` (empty when `b < a`), mirroring
Python's `range(a, b+1)`. -/
def intRange (a b : ℤ) : List ℤ :=
  (List.range (b + 1 - a).toNat).map (fun i => a + (i : ℤ))

/-- The grid cells whose tile index range is scanned by `hits_wall` and
`hits_wall_eyes` for a given rectangle. -/
def coveredCells (rc : PRect) : List (ℤ × ℤ) :=
  let l := max 0 (Int.fdiv (rc.left - OFFSET_X) TILE_SIZE)
  let r := min ((COLS : ℤ) - 1) (Int.fdiv (rc.left + rc.w - 1 - OFFSET_X) TILE_SIZE)
  let t := max 0 (Int.fdiv (rc.top - OFFSET_Y) TILE_SIZE)
  let b := min ((ROWS : ℤ) - 1) (Int.fdiv (rc.top + rc.h - 1 - OFFSET_Y) TILE_SIZE)
  (intRange t b).flatMap (fun rr => (intRange l r).map (fun cc => (cc, rr)))

/-- Embeds `hits_wall`: some scanned cell is a wall or door and overlaps. -/
def hits_wall (rc : PRect) : Bool :=
  (coveredCells rc).any (fun p => blocksNormal p.1 p.2 && colliderect rc (rect_for_cell p.1 p.2))

/-- Embeds `hits_wall_eyes`: like `hits_wall` but door cells do not block. -/
def hits_wall_eyes (rc : PRect) : Bool :=
  (coveredCells rc).any (fun p => blocksEyes p.1 p.2 && colliderect rc (rect_for_cell p.1 p.2))

/-- Embeds `load_dots`: the dot and power-pellet cells of the maze. -/
def load_dots : List (ℤ × ℤ) × List (ℤ × ℤ) :=
  let cells := (List.range ROWS).flatMap (fun r => (List.range COLS).map (fun c => ((c : ℤ), (r : ℤ))))
  (cells.filter (fun p => mazeCharZ p.1 p.2 == '2'),
   cells.filter (fun p => mazeCharZ p.1 p.2 == '3'))

/-- Is every row of the layout exactly as long as the first one?  The source
performs no such check; this predicate states rectangularity. -/
def rowsRectangular : Bool := mazeRows.all (fun row => row.length == COLS)

/-! ## Entities -/

/-- Ghost modes (the strings `normal` / `vulnerable` / `eyes` in the source). -/
inductive Mode where
  | normal
  | vulnerable
  | eyes
deriving DecidableEq, Repr

/-- Ghost behavior tags (the strings `chase` / `random` in the source). -/
inductive Behavior where
  | chase
  | random
deriving DecidableEq, Repr

/-- Pacman's collision radius, `TILE_SIZE // 2 - 2`. -/
def PACMAN_RADIUS : ℤ := ((TILE_SIZE / 2 : ℕ) : ℤ) - 2

/-- A ghost's collision radius, `TILE_SIZE // 2 - 3`. -/
def GHOST_RADIUS : ℤ := ((TILE_SIZE / 2 : ℕ) : ℤ) - 3

/-- The player entity: continuous position, discrete cell, directions,
lives, score and the power timer. -/
structure Pacman where
  col : ℤ
  row : ℤ
  x : ℚ
  y : ℚ
  dir : ℤ × ℤ
  target_dir : ℤ × ℤ
  lives : ℤ
  score : ℤ
  power_timer : ℚ
deriving DecidableEq, Repr

/-- A pursuer: position, direction, spawn and home cells, mode and behavior. -/
structure Ghost where
  col : ℤ
  row : ℤ
  x : ℚ
  y : ℚ
  dir : ℤ × ℤ
  spawn : ℤ × ℤ
  home : ℤ × ℤ
  mode : Mode
  behavior : Behavior
  flash_timer : ℚ
deriving DecidableEq, Repr

/-- The bounding box of an entity, `Rect(int(x-r), int(y-r), 2r, 2r)`. -/
def entityRect (x y : ℚ) (radius : ℤ) : PRect :=
  ⟨pyInt (x - (radius : ℚ)), pyInt (y - (radius : ℚ)), radius * 2, radius * 2⟩

def pacRect (p : Pacman) : PRect := entityRect p.x p.y PACMAN_RADIUS

def ghostRect (g : Ghost) : PRect := entityRect g.x g.y GHOST_RADIUS

/-- Embeds `Entity.grid_pos`: the discrete cell derived from the position. -/
def grid_pos (x y : ℚ) : ℤ × ℤ :=
  (qfloor ((x - (OFFSET_X : ℚ)) / (TILE_SIZE : ℚ)),
   qfloor ((y - (OFFSET_Y : ℚ)) / (TILE_SIZE : ℚ)))

/-- Embeds `try_change_dir`. -/
def try_change_dir (c r : ℤ) (t : ℤ × ℤ) : ℤ × ℤ :=
  if t = (0, 0) then (0, 0)
  else if is_wall (c + t.1) (r + t.2) then (0, 0) else t

/-- The cell-centering tolerance test `abs(a - b) <= 2`. -/
def near (a : ℚ) (b : ℤ) : Bool := decide (-2 ≤ a - (b : ℚ)) && decide (a - (b : ℚ) ≤ 2)

/-- Embeds `Pacman.update`: snap/direction change at cell center, per-axis
movement with wall collision, cell recomputation, power-timer decay. -/
def pacUpdate (dt : ℚ) (p : Pacman) : Pacman :=
  let cw := grid_to_world p.col p.row
  let snap := near p.x cw.1 && near p.y cw.2
  let x0 : ℚ := if snap then (cw.1 : ℚ) else p.x
  let y0 : ℚ := if snap then (cw.2 : ℚ) else p.y
  let d : ℤ × ℤ := if snap then try_change_dir p.col p.row p.target_dir else p.dir
  let dx : ℚ := (d.1 : ℚ) * (PACMAN_SPEED : ℚ) * dt
  let dy : ℚ := (d.2 : ℚ) * (PACMAN_SPEED : ℚ) * dt
  let x1 := x0 + dx
  let x2 := if hits_wall (entityRect x1 y0 PACMAN_RADIUS) then x0 else x1
  let y1 := y0 + dy
  let y2 := if hits_wall (entityRect x2 y1 PACMAN_RADIUS) then y0 else y1
  let cr := grid_pos x2 y2
  let t1 : ℚ := if 0 < p.power_timer then max 0 (p.power_timer - dt) else p.power_timer
  { p with x := x2, y := y2, col := cr.1, row := cr.2, dir := d, power_timer := t1 }

/-- Result of `handle_pacman_eats`: updated player, pickup sets, and the
"ate something" flag. -/
structure EatsRes where
  pac : Pacman
  dots : List (ℤ × ℤ)
  power : List (ℤ × ℤ)
  ate : Bool
deriving DecidableEq, Repr

/-- Embeds `handle_pacman_eats`. -/
def handle_pacman_eats (p : Pacman) (dots power : List (ℤ × ℤ)) : EatsRes :=
  let cell := (p.col, p.row)
  let hd := decide (cell ∈ dots)
  let dots1 := if hd then dots.erase cell else dots
  let p1 := if hd then { p with score := p.score + DOT_SCORE } else p
  let hp := decide (cell ∈ power)
  let power1 := if hp then power.erase cell else power
  let p2 := if hp then { p1 with score := p1.score + POWER_SCORE, power_timer := POWER_DURATION }
            else p1
  ⟨p2, dots1, power1, hd || hp⟩

/-- Embeds `Ghost.set_vulnerable` (no effect on an eyes-mode ghost). -/
def set_vulnerable (g : Ghost) : Ghost :=
  if g.mode = Mode.eyes then g else { g with mode := Mode.vulnerable, flash_timer := 0 }

/-- Embeds `Ghost.set_normal`. -/
def set_normal (g : Ghost) : Ghost := { g with mode := Mode.normal }

/-- Embeds `Ghost.set_eyes`. -/
def set_eyes (g : Ghost) : Ghost := { g with mode := Mode.eyes }

/-- Embeds `Ghost.speed`. -/
def ghostSpeed (g : Ghost) : ℤ :=
  if g.mode = Mode.vulnerable then VULNERABLE_SPEED else GHOST_SPEED

/-- The fixed compass iteration order `(1,0), (-1,0), (0,1), (0,-1)`. -/
def DIRS : List (ℤ × ℤ) := [(1, 0), (-1, 0), (0, 1), (0, -1)]

/-- Embeds the candidate-direction construction of `Ghost.update`: append an
open direction unless it reverses the current direction while the option list
built SO FAR is nonempty. -/
def ghostOptions (g : Ghost) : List (ℤ × ℤ) :=
  DIRS.foldl (fun opts d =>
    if !is_wall (g.col + d.1) (g.row + d.2) &&
       (decide ((-d.1, -d.2) ≠ g.dir) || opts.isEmpty) then opts ++ [d] else opts) []

/-- Squared distance between cells. -/
def sqDist (a b : ℤ × ℤ) : ℤ := (a.1 - b.1) ^ 2 + (a.2 - b.2) ^ 2

/-- Fold of the source's arg-min pattern (`best = None`, `best_dist = 1e9`,
strict improvement).  When every distance is at least `10^9` the source would
leave `best = None` and crash at the subsequent indexing; the embedding
returns `(0, 0)` in that (unreachable for in-maze cells) corner. -/
def bestToward (cell target : ℤ × ℤ) (options : List (ℤ × ℤ)) : ℤ × ℤ :=
  (options.foldl (fun acc d =>
      let dist := sqDist (cell.1 + d.1, cell.2 + d.2) target
      if dist < acc.2 then (some d, dist) else acc)
    ((none : Option (ℤ × ℤ)), (1000000000 : ℤ))).1.getD (0, 0)

/-- Fold of the source's arg-max pattern (`best_dist = -1`, strict
improvement); the first option always improves on `-1`. -/
def bestAway (cell target : ℤ × ℤ) (options : List (ℤ × ℤ)) : ℤ × ℤ :=
  (options.foldl (fun acc d =>
      let dist := sqDist (cell.1 + d.1, cell.2 + d.2) target
      if acc.2 < dist then (some d, dist) else acc)
    ((none : Option (ℤ × ℤ)), (-1 : ℤ))).1.getD (0, 0)

/-- Embeds `Ghost._choose_dir`; `pick` models `random.choice`. -/
def choose_dir (pick : List (ℤ × ℤ) → ℤ × ℤ) (g : Ghost) (pac : Pacman)
    (options : List (ℤ × ℤ)) : ℤ × ℤ :=
  if options.isEmpty then (0, 0)
  else if g.mode = Mode.vulnerable then bestAway (g.col, g.row) (pac.col, pac.row) options
  else if g.behavior = Behavior.random then pick options
  else bestToward (g.col, g.row) (pac.col, pac.row) options

/-- The per-axis movement of `Ghost.update` after the direction decision
(both displacements are computed from the direction before any revert). -/
def ghostMove (dt : ℚ) (g : Ghost) : Ghost :=
  let spd := ghostSpeed g
  let dx : ℚ := (g.dir.1 : ℚ) * (spd : ℚ) * dt
  let dy : ℚ := (g.dir.2 : ℚ) * (spd : ℚ) * dt
  let x1 := g.x + dx
  let hx := hits_wall (entityRect x1 g.y GHOST_RADIUS)
  let x2 := if hx then g.x else x1
  let d1 := if hx then ((0 : ℤ), (0 : ℤ)) else g.dir
  let y1 := g.y + dy
  let hy := hits_wall (entityRect x2 y1 GHOST_RADIUS)
  let y2 := if hy then g.y else y1
  let d2 := if hy then ((0 : ℤ), (0 : ℤ)) else d1
  let cr := grid_pos x2 y2
  { g with x := x2, y := y2, dir := d2, col := cr.1, row := cr.2 }

/-- Embeds `Ghost._move_towards` (eyes-mode pathing: doors are passable,
greedy arg-min toward the target, movement checked by `hits_wall_eyes`). -/
def move_towards (dt : ℚ) (target : ℤ × ℤ) (g : Ghost) : Ghost :=
  let options := DIRS.filter (fun d =>
    is_inside_grid (g.col + d.1) (g.row + d.2) &&
    (mazeCharZ (g.col + d.1) (g.row + d.2) != '1'))
  let d0 := if options.isEmpty then g.dir else bestToward (g.col, g.row) target options
  let spd : ℤ := GHOST_SPEED + 30
  let dx : ℚ := (d0.1 : ℚ) * (spd : ℚ) * dt
  let dy : ℚ := (d0.2 : ℚ) * (spd : ℚ) * dt
  let x1 := g.x + dx
  let hx := hits_wall_eyes (entityRect x1 g.y GHOST_RADIUS)
  let x2 := if hx then g.x else x1
  let d1 := if hx then ((0 : ℤ), (0 : ℤ)) else d0
  let y1 := g.y + dy
  let hy := hits_wall_eyes (entityRect x2 y1 GHOST_RADIUS)
  let y2 := if hy then g.y else y1
  let d2 := if hy then ((0 : ℤ), (0 : ℤ)) else d1
  let cr := grid_pos x2 y2
  { g with x := x2, y := y2, dir := d2, col := cr.1, row := cr.2 }

/-- Embeds `Ghost.update`: the eyes branch paths home and respawns at the
spawn cell on arrival; other modes decide a direction at cell centers and
then move. -/
def ghostUpdate (pick : List (ℤ × ℤ) → ℤ × ℤ) (dt : ℚ) (pac : Pacman) (g : Ghost) : Ghost :=
  if g.mode = Mode.eyes then
    let g1 := move_towards dt g.home g
    if (g1.col, g1.row) = g.home then
      let cw := grid_to_world g.spawn.1 g.spawn.2
      { g1 with col := g.spawn.1, row := g.spawn.2,
                x := (cw.1 : ℚ), y := (cw.2 : ℚ), mode := Mode.normal }
    else g1
  else
    let cw := grid_to_world g.col g.row
    let atCenter := near g.x cw.1 && near g.y cw.2
    let g1 :=
      if atCenter then
        { g with x := (cw.1 : ℚ), y := (cw.2 : ℚ),
                 dir := choose_dir pick g pac (ghostOptions g) }
      else g
    ghostMove dt g1

/-- The player part of `reset_positions`: center in the CURRENT cell and
clear both directions (the cell itself is not changed). -/
def resetPacman (p : Pacman) : Pacman :=
  let cw := grid_to_world p.col p.row
  { p with x := (cw.1 : ℚ), y := (cw.2 : ℚ), dir := (0, 0), target_dir := (0, 0) }

/-- The per-ghost part of `reset_positions`: back to the spawn cell,
centered, direction cleared, mode normal. -/
def resetGhost (g : Ghost) : Ghost :=
  let cw := grid_to_world g.spawn.1 g.spawn.2
  { g with col := g.spawn.1, row := g.spawn.2, x := (cw.1 : ℚ), y := (cw.2 : ℚ),
           dir := (0, 0), mode := Mode.normal }

/-- Embeds `check_collisions` together with the enumeration order of the
ghost list: the colliding ghosts, paired with their indices. -/
def collisionPairs (p : Pacman) (gs : List Ghost) : List (ℕ × Ghost) :=
  gs.enum.filter (fun ig => colliderect (pacRect p) (ghostRect ig.2))

/-- Result of the collision-resolution loop of `main`. -/
structure ColRes where
  pac : Pacman
  ghosts : List Ghost
  game_over : Bool
deriving DecidableEq, Repr

/-- Embeds the `for g in hits` loop of `main`: vulnerable hits award score
and become eyes; the first normal hit costs a life, resets everything and
breaks; eyes hits are skipped. -/
def hitLoop (p : Pacman) (gs : List Ghost) (go : Bool) : List (ℕ × Ghost) → ColRes
  | [] => ⟨p, gs, go⟩
  | (i, g) :: rest =>
    match g.mode with
    | Mode.vulnerable =>
        hitLoop { p with score := p.score + GHOST_SCORE } (gs.set i (set_eyes g)) go rest
    | Mode.normal =>
        let p1 := { p with lives := p.lives - 1 }
        let go1 := if p1.lives ≤ 0 then true else go
        ⟨resetPacman p1, gs.map resetGhost, go1⟩
    | Mode.eyes => hitLoop p gs go rest

/-- Collision resolution for one tick: the hit list is computed once, then
processed in order. -/
def resolveCollisions (p : Pacman) (gs : List Ghost) (go : Bool) : ColRes :=
  hitLoop p gs go (collisionPairs p gs)

/-- Modes of the ghosts of a hit list, in processing order. -/
def hitModes (l : List (ℕ × Ghost)) : List Mode := l.map (fun ig => ig.2.mode)

/-- Number of vulnerable hits processed before the first normal hit
(all of them when no normal hit occurs). -/
def capCount : List Mode → ℕ
  | [] => 0
  | Mode.vulnerable :: rest => capCount rest + 1
  | Mode.normal :: _ => 0
  | Mode.eyes :: rest => capCount rest

/-- The `if g.mode == 'vulnerable': g.set_normal()` sweep of `main`. -/
def unVulnerable (g : Ghost) : Ghost :=
  if g.mode = Mode.vulnerable then set_normal g else g

/-- Embeds the pickup-consumption plus vulnerability-broadcast step of
`main`: the broadcast fires when something (anything) was eaten and the
power timer is positive afterwards. -/
def eatsBroadcast (p : Pacman) (dots power : List (ℤ × ℤ)) (gs : List Ghost) :
    EatsRes × List Ghost :=
  let e := handle_pacman_eats p dots power
  (e, if e.ate && decide (0 < e.pac.power_timer) then gs.map set_vulnerable else gs)

/-- Whole game state manipulated by the main loop. -/
structure Game where
  pac : Pacman
  ghosts : List Ghost
  dots : List (ℤ × ℤ)
  power : List (ℤ × ℤ)
  game_over : Bool
  win : Bool
deriving DecidableEq, Repr

/-- One simulation tick: the body of the `if not (game_over or win)` block
of `main`, in source order (player motion, eating and broadcast, ghost
updates, vulnerability end, collisions, win check).  A terminal state is
returned unchanged. -/
def tick (pick : List (ℤ × ℤ) → ℤ × ℤ) (dt : ℚ) (s : Game) : Game :=
  if s.game_over || s.win then s
  else
    let p1 := pacUpdate dt s.pac
    let eb := eatsBroadcast p1 s.dots s.power s.ghosts
    let e := eb.1
    let gs2 := eb.2.map (ghostUpdate pick dt e.pac)
    let gs3 := if e.pac.power_timer = 0 then gs2.map unVulnerable else gs2
    let r := resolveCollisions e.pac gs3 s.game_over
    { pac := r.pac, ghosts := r.ghosts, dots := e.dots, power := e.power,
      game_over := r.game_over,
      win := if e.dots.length + e.power.length = 0 then true else s.win }

/-- The player start cell computed in `main`: row `ROWS - 2`, first
non-wall column at or left of `COLS // 2`. -/
def player_spawn : ℤ × ℤ :=
  let half : ℤ := ((COLS / 2 : ℕ) : ℤ)
  let row : ℤ := (ROWS : ℤ) - 2
  match ((List.range COLS).map (fun dc => half - (dc : ℤ))).find?
      (fun c => decide (1 ≤ c) && (mazeCharZ c row != '1')) with
  | some c => (c, row)
  | none => (half, row)

/-! ## Concrete entities and auxiliary data used in scenarios -/

/-- A deterministic stand-in for `random.choice` (its value never matters in
the theorems below). -/
def pick0 : List (ℤ × ℤ) → ℤ × ℤ := fun _ => (0, 0)

/-- A player with fresh stats centered in cell `(c, r)`. -/
def pacAt (c r : ℤ) : Pacman :=
  { col := c, row := r, x := ((grid_to_world c r).1 : ℚ), y := ((grid_to_world c r).2 : ℚ),
    dir := (0, 0), target_dir := (0, 0), lives := START_LIVES, score := 0, power_timer := 0 }

/-- A ghost centered in cell `(c, r)` with the first door cell as its
spawn and home (as built by `create_ghosts` for the actual maze). -/
def ghostAt (c r : ℤ) (m : Mode) : Ghost :=
  { col := c, row := r, x := ((grid_to_world c r).1 : ℚ), y := ((grid_to_world c r).2 : ℚ),
    dir := (0, 0), spawn := (12, 6), home := (12, 6), mode := m, behavior := Behavior.chase,
    flash_timer := 0 }

/-- Validity of a hit list with respect to a ghost list: each pair records a
ghost at its index, and the indices are pairwise distinct.  This holds for
`collisionPairs` by construction. -/
def pairsValid (gs : List Ghost) (l : List (ℕ × Ghost)) : Prop :=
  (∀ ig ∈ l, gs[ig.1]? = some ig.2) ∧ (l.map Prod.fst).Nodup

/-! ## Reachability in the maze (for the connectivity claim) -/

/-- A cell (natural-number coordinates) that is inside the grid and not a
wall; this is the passability used by the spec's "Corridor/Door-for-pursuers
adjacency" and by `Ghost._move_towards`. -/
def openCellB (c r : ℕ) : Bool :=
  decide (c < COLS) && decide (r < ROWS) && (mazeCharN c r != '1')

/-- A corridor cell (characters `0`, `2`, `3`). -/
def corridorB (c r : ℕ) : Bool :=
  mazeCharN c r == '0' || mazeCharN c r == '2' || mazeCharN c r == '3'

/-- Axis adjacency of two cells. -/
def adjB (c r c2 r2 : ℕ) : Bool :=
  (c == c2 && (r + 1 == r2 || r2 + 1 == r)) || (r == r2 && (c + 1 == c2 || c2 + 1 == c))

/-- Reachability from the player start cell `(14, 29)` through open
(non-wall) cells by axis adjacency. -/
inductive Reach : ℕ → ℕ → Prop where
  | start : Reach 14 29
  | step (c r c2 r2 : ℕ) :
      Reach c r → adjB c r c2 r2 = true → openCellB c2 r2 = true → Reach c2 r2

/-- The in-grid axis neighbors of a cell. -/
def nbrsOf (c r : ℕ) : List (ℕ × ℕ) :=
  ((c + 1, r) :: (c - 1, r) :: (c, r + 1) :: (c, r - 1) :: []).filter
    (fun q => decide (q.1 < COLS) && decide (q.2 < ROWS) && adjB c r q.1 q.2)

/-- Breadth-first layers outward from the start cell: every cell of layer
`k+1` is an open cell adjacent to some cell of layer `k`. -/
def reachLayers : List (List (ℕ × ℕ)) := [
  [(15, 29), (13, 29)],
  [(16, 29), (12, 29)],
  [(17, 29), (11, 29)],
  [(18, 29), (10, 29)],
  [(19, 29), (9, 29)],
  [(20, 29), (8, 29)],
  [(21, 29), (7, 29)],
  [(22, 29), (6, 29)],
  [(23, 29), (5, 29)],
  [(24, 29), (4, 29)],
  [(25, 29), (3, 29)],
  [(26, 29), (2, 29)],
  [(26, 28), (1, 29)],
  [(26, 27), (1, 28)],
  [(25, 27), (26, 26), (1, 27)],
  [(24, 27), (25, 26), (26, 25), (2, 27), (1, 26)],
  [(23, 27), (24, 26), (25, 25), (3, 27), (2, 26), (1, 25)],
  [(22, 27), (23, 26), (24, 25), (4, 27), (3, 26), (2, 25)],
  [(21, 27), (22, 26), (23, 25), (5, 27), (4, 26), (3, 25)],
  [(20, 27), (21, 26), (22, 25), (6, 27), (5, 26), (4, 25)],
  [(19, 27), (20, 26), (21, 25), (7, 27), (6, 26), (5, 25)],
  [(18, 27), (19, 26), (20, 25), (8, 27), (7, 26), (6, 25)],
  [(17, 27), (18, 26), (19, 25), (9, 27), (8, 26), (7, 25)],
  [(16, 27), (17, 26), (18, 25), (10, 27), (9, 26), (8, 25)],
  [(15, 27), (16, 26), (17, 25), (11, 27), (10, 26), (9, 25)],
  [(14, 27), (15, 26), (16, 25), (12, 27), (11, 26), (10, 25)],
  [(13, 27), (14, 26), (15, 25), (12, 26), (11, 25)],
  [(13, 26), (14, 25), (12, 25)],
  [(13, 25)]]

/-- All cells claimed reachable: the start plus the layers. -/
def reachCells : List (ℕ × ℕ) := (14, 29) :: reachLayers.flatten

/-- Checks that each successive layer consists of open cells adjacent to the
previous layer. -/
def chainOk : List (ℕ × ℕ) → List (List (ℕ × ℕ)) → Bool
  | _, [] => true
  | prev, layer :: rest =>
      layer.all (fun q => openCellB q.1 q.2 && prev.any (fun p => adjB p.1 p.2 q.1 q.2)) &&
      chainOk layer rest

/-- Open cells in rows 25..29 only have open neighbors in rows 25..29 (the
bottom chamber is sealed by the all-wall row 24). -/
def sealOk : Bool :=
  (List.range ROWS).all (fun r => (List.range COLS).all (fun c =>
    !(openCellB c r && decide (25 ≤ r) && decide (r ≤ 29)) ||
    (nbrsOf c r).all (fun q => !(openCellB q.1 q.2) || (decide (25 ≤ q.2) && decide (q.2 ≤ 29)))))

/-- Every corridor cell of rows 25..29 occurs in `reachCells`. -/
def coverageOk : Bool :=
  (List.range ROWS).all (fun r => (List.range COLS).all (fun c =>
    !(corridorB c r && decide (25 ≤ r) && decide (r ≤ 29)) ||
    reachCells.any (fun p => p.1 == c && p.2 == r)))

/-- The six border cells that are not walls (the tunnel stubs of rows 10 and
14 and the stray 29th-column dots of the overlong rows 6 and 21). -/
def borderExceptions : List (ℕ × ℕ) := [(27, 6), (0, 10), (27, 10), (0, 14), (27, 14), (27, 21)]

/-- Every cell on the outer border is a wall except the six listed cells. -/
def borderWallOk : Bool :=
  (List.range ROWS).all (fun r => (List.range COLS).all (fun c =>
    !(r == 0 || r == ROWS - 1 || c == 0 || c == COLS - 1) ||
    (mazeCharN c r == '1') ||
    borderExceptions.any (fun p => p.1 == c && p.2 == r)))

/-- For every grid cell, blocking-for-normal-movement but not
blocking-for-eyes-movement is exactly being the door. -/
def doorDiffOk : Bool :=
  (List.range ROWS).all (fun r => (List.range COLS).all (fun c =>
    ((blocksNormal (c : ℤ) (r : ℤ) && !(blocksEyes (c : ℤ) (r : ℤ))) == is_door (c : ℤ) (r : ℤ))))

/-! ## List helpers -/

/-- Setting an index to the value it already holds is the identity. -/
theorem set_of_getElem? {α : Type} (l : List α) (i : ℕ) (a : α) (h : l[i]? = some a) :
    l.set i a = l := by
  induction l generalizing i with
  | nil => simp at h
  | cons x xs ih =>
      cases i with
      | zero => simp at h; simp [h]
      | succ j => simp at h; simp [List.set, ih j h]

/-- The hit list built by `collisionPairs` is valid for the ghost list. -/
theorem collisionPairs_valid (p : Pacman) (gs : List Ghost) :
    pairsValid gs (collisionPairs p gs) := by
  constructor
  · intro ig hig
    have h1 : ig ∈ gs.enum := List.mem_of_mem_filter hig
    obtain ⟨i, g⟩ := ig
    exact List.mk_mem_enum_iff_getElem?.1 h1
  · have hsub : (collisionPairs p gs).Sublist gs.enum := List.filter_sublist _
    exact (List.nodup_enum_map_fst gs).sublist (hsub.map Prod.fst)

/-- Replacing a ghost by its eyes version does not change the reset list. -/
theorem map_reset_set_eyes (gs : List Ghost) (i : ℕ) (g : Ghost) (h : gs[i]? = some g) :
    (gs.set i (set_eyes g)).map resetGhost = gs.map resetGhost := by
  have h2 : resetGhost (set_eyes g) = resetGhost g := by cases g; rfl
  rw [List.map_set, h2]
  exact set_of_getElem? _ i _ (by simp [h])

/-! ## Collision-loop lemmas -/

/-- Lives after the hit loop: exactly one decrement when some hit ghost is
normal, no change otherwise. -/
theorem hitLoop_lives (l : List (ℕ × Ghost)) : ∀ (p : Pacman) (gs : List Ghost) (go : Bool),
    (hitLoop p gs go l).pac.lives =
      if Mode.normal ∈ hitModes l then p.lives - 1 else p.lives := by
  induction l with
  | nil => intro p gs go; simp [hitLoop, hitModes]
  | cons hd rest ih =>
      intro p gs go
      obtain ⟨i, g⟩ := hd
      have hmodes : hitModes ((i, g) :: rest) = g.mode :: hitModes rest := by
        simp [hitModes]
      cases hm : g.mode
      case normal =>
        simp [hitLoop, hm, hmodes, resetPacman]
      case vulnerable =>
        have h1 : hitLoop p gs go ((i, g) :: rest) =
            hitLoop { p with score := p.score + GHOST_SCORE } (gs.set i (set_eyes g)) go rest := by
          simp [hitLoop, hm]
        rw [h1, ih, hmodes, hm]
        simp [List.mem_cons]
      case eyes =>
        have h1 : hitLoop p gs go ((i, g) :: rest) = hitLoop p gs go rest := by
          simp [hitLoop, hm]
        rw [h1, ih, hmodes, hm]
        simp [List.mem_cons]

/-- Score after the hit loop: one capture award per vulnerable hit processed
before the first normal hit. -/
theorem hitLoop_score (l : List (ℕ × Ghost)) : ∀ (p : Pacman) (gs : List Ghost) (go : Bool),
    (hitLoop p gs go l).pac.score =
      p.score + GHOST_SCORE * (capCount (hitModes l) : ℤ) := by
  induction l with
  | nil => intro p gs go; simp [hitLoop, hitModes, capCount]
  | cons hd rest ih =>
      intro p gs go
      obtain ⟨i, g⟩ := hd
      cases hm : g.mode
      · simp [hitLoop, hm, hitModes, capCount, resetPacman]
      · simp only [hitLoop, hm, hitModes, List.map_cons, capCount, ih]
        push_cast
        ring
      · simp only [hitLoop, hm, hitModes, List.map_cons, capCount, ih]

/-- Game-over flag after the hit loop. -/
theorem hitLoop_go (l : List (ℕ × Ghost)) : ∀ (p : Pacman) (gs : List Ghost) (go : Bool),
    (hitLoop p gs go l).game_over =
      if Mode.normal ∈ hitModes l then (if p.lives - 1 ≤ 0 then true else go) else go := by
  induction l with
  | nil => intro p gs go; simp [hitLoop, hitModes]
  | cons hd rest ih =>
      intro p gs go
      obtain ⟨i, g⟩ := hd
      have hmodes : hitModes ((i, g) :: rest) = g.mode :: hitModes rest := by
        simp [hitModes]
      cases hm : g.mode
      case normal =>
        simp [hitLoop, hm, hmodes]
      case vulnerable =>
        have h1 : hitLoop p gs go ((i, g) :: rest) =
            hitLoop { p with score := p.score + GHOST_SCORE } (gs.set i (set_eyes g)) go rest := by
          simp [hitLoop, hm]
        rw [h1, ih, hmodes, hm]
        simp [List.mem_cons]
      case eyes =>
        have h1 : hitLoop p gs go ((i, g) :: rest) = hitLoop p gs go rest := by
          simp [hitLoop, hm]
        rw [h1, ih, hmodes, hm]
        simp [List.mem_cons]

/-- When some hit ghost is normal, the loop ends in a global reset: all
ghosts are reset and the player is centered in its current (unchanged) cell
with directions cleared. -/
theorem hitLoop_reset (l : List (ℕ × Ghost)) : ∀ (p : Pacman) (gs : List Ghost) (go : Bool),
    pairsValid gs l → Mode.normal ∈ hitModes l →
    (hitLoop p gs go l).ghosts = gs.map resetGhost ∧
    (hitLoop p gs go l).pac.col = p.col ∧ (hitLoop p gs go l).pac.row = p.row ∧
    (hitLoop p gs go l).pac.dir = (0, 0) ∧ (hitLoop p gs go l).pac.target_dir = (0, 0) ∧
    (hitLoop p gs go l).pac.x = ((grid_to_world p.col p.row).1 : ℚ) ∧
    (hitLoop p gs go l).pac.y = ((grid_to_world p.col p.row).2 : ℚ) := by
  induction l with
  | nil => intro p gs go _ hn; simp [hitModes] at hn
  | cons hd rest ih =>
      intro p gs go hv hn
      obtain ⟨i, g⟩ := hd
      obtain ⟨hmem, hnodup⟩ := hv
      have hnodup2 : (i :: rest.map Prod.fst).Nodup := by simpa using hnodup
      have hi : i ∉ rest.map Prod.fst := (List.nodup_cons.1 hnodup2).1
      have htl : (rest.map Prod.fst).Nodup := (List.nodup_cons.1 hnodup2).2
      cases hm : g.mode
      case normal =>
        simp [hitLoop, hm, resetPacman]
      case vulnerable =>
        have hg : gs[i]? = some g := hmem (i, g) (List.mem_cons_self _ _)
        have h1 : hitLoop p gs go ((i, g) :: rest) =
            hitLoop { p with score := p.score + GHOST_SCORE } (gs.set i (set_eyes g)) go rest := by
          simp [hitLoop, hm]
        have hv2 : pairsValid (gs.set i (set_eyes g)) rest := by
          refine ⟨?_, htl⟩
          intro jg hjg
          have hne : i ≠ jg.1 := by
            intro he
            exact hi (he ▸ List.mem_map.2 ⟨jg, hjg, rfl⟩)
          rw [List.getElem?_set_ne hne]
          exact hmem jg (List.mem_cons_of_mem _ hjg)
        have hn2 : Mode.normal ∈ hitModes rest := by
          simp [hitModes, hm] at hn
          simpa [hitModes] using hn
        obtain ⟨hg1, hc, hr, hdir, htd, hx, hy⟩ := ih _ _ go hv2 hn2
        rw [h1]
        rw [map_reset_set_eyes gs i g hg] at hg1
        exact ⟨hg1, hc, hr, hdir, htd, hx, hy⟩
      case eyes =>
        have h1 : hitLoop p gs go ((i, g) :: rest) = hitLoop p gs go rest := by
          simp [hitLoop, hm]
        have hv2 : pairsValid gs rest :=
          ⟨fun jg hjg => hmem jg (List.mem_cons_of_mem _ hjg), htl⟩
        have hn2 : Mode.normal ∈ hitModes rest := by
          simp [hitModes, hm] at hn
          simpa [hitModes] using hn
        rw [h1]
        exact ih p gs go hv2 hn2

/-- When no hit ghost is normal, indices outside the hit list are untouched. -/
theorem hitLoop_frame (l : List (ℕ × Ghost)) : ∀ (p : Pacman) (gs : List Ghost) (go : Bool),
    Mode.normal ∉ hitModes l →
    ∀ j, j ∉ l.map Prod.fst → (hitLoop p gs go l).ghosts[j]? = gs[j]? := by
  induction l with
  | nil => intro p gs go _ j _; simp [hitLoop]
  | cons hd rest ih =>
      intro p gs go hn j hj
      obtain ⟨i, g⟩ := hd
      have hj2 : j ∉ rest.map Prod.fst := by
        intro hc
        exact hj (by simpa using Or.inr hc)
      have hji : j ≠ i := by
        intro he
        exact hj (by simp [he])
      cases hm : g.mode
      case normal =>
        exact absurd (by simp [hitModes, hm]) hn
      case vulnerable =>
        have h1 : hitLoop p gs go ((i, g) :: rest) =
            hitLoop { p with score := p.score + GHOST_SCORE } (gs.set i (set_eyes g)) go rest := by
          simp [hitLoop, hm]
        have hn2 : Mode.normal ∉ hitModes rest := by
          intro hc
          exact hn (by simp [hitModes] at hc ⊢; exact Or.inr hc)
        rw [h1, ih _ _ go hn2 j hj2, List.getElem?_set_ne (Ne.symm hji)]
      case eyes =>
        have h1 : hitLoop p gs go ((i, g) :: rest) = hitLoop p gs go rest := by
          simp [hitLoop, hm]
        have hn2 : Mode.normal ∉ hitModes rest := by
          intro hc
          exact hn (by simp [hitModes] at hc ⊢; exact Or.inr hc)
        rw [h1]
        exact ih p gs go hn2 j hj2

/-- When no hit ghost is normal, every vulnerable hit ghost ends as its
eyes version at its index. -/
theorem hitLoop_eyes_set (l : List (ℕ × Ghost)) : ∀ (p : Pacman) (gs : List Ghost) (go : Bool),
    pairsValid gs l → Mode.normal ∉ hitModes l →
    ∀ ig ∈ l, ig.2.mode = Mode.vulnerable →
      (hitLoop p gs go l).ghosts[ig.1]? = some (set_eyes ig.2) := by
  induction l with
  | nil => intro p gs go _ _ ig hig; simp at hig
  | cons hd rest ih =>
      intro p gs go hv hn ig hig hvuln
      obtain ⟨i, g⟩ := hd
      obtain ⟨hmem, hnodup⟩ := hv
      have hnodup2 : (i :: rest.map Prod.fst).Nodup := by simpa using hnodup
      have hi : i ∉ rest.map Prod.fst := (List.nodup_cons.1 hnodup2).1
      have htl : (rest.map Prod.fst).Nodup := (List.nodup_cons.1 hnodup2).2
      have hn2 : Mode.normal ∉ hitModes rest := by
        intro hc
        exact hn (by simp [hitModes] at hc ⊢; exact Or.inr hc)
      cases hm : g.mode
      case normal =>
        exact absurd (by simp [hitModes, hm]) hn
      case vulnerable =>
        have hg : gs[i]? = some g := hmem (i, g) (List.mem_cons_self _ _)
        have hlt : i < gs.length := by
          rcases List.getElem?_eq_some_iff.1 hg with ⟨h, _⟩
          exact h
        have h1 : hitLoop p gs go ((i, g) :: rest) =
            hitLoop { p with score := p.score + GHOST_SCORE } (gs.set i (set_eyes g)) go rest := by
          simp [hitLoop, hm]
        have hv2 : pairsValid (gs.set i (set_eyes g)) rest := by
          refine ⟨?_, htl⟩
          intro jg hjg
          have hne : i ≠ jg.1 := by
            intro he
            exact hi (he ▸ List.mem_map.2 ⟨jg, hjg, rfl⟩)
          rw [List.getElem?_set_ne hne]
          exact hmem jg (List.mem_cons_of_mem _ hjg)
        rcases List.mem_cons.1 hig with he | hr
        · subst he
          rw [h1, hitLoop_frame rest _ _ go hn2 i hi]
          exact List.getElem?_set_self hlt
        · rw [h1]
          exact ih _ _ go hv2 hn2 ig hr hvuln
      case eyes =>
        have h1 : hitLoop p gs go ((i, g) :: rest) = hitLoop p gs go rest := by
          simp [hitLoop, hm]
        have hv2 : pairsValid gs rest :=
          ⟨fun jg hjg => hmem jg (List.mem_cons_of_mem _ hjg), htl⟩
        rcases List.mem_cons.1 hig with he | hr
        · exfalso
          subst he
          simp only at hvuln
          rw [hm] at hvuln
          exact absurd hvuln (by decide)
        · rw [h1]
          exact ih p gs go hv2 hn2 ig hr hvuln

/-! ## Reachability lemmas -/

/-- Open cells are inside the grid. -/
theorem open_bounds (c r : ℕ) (h : openCellB c r = true) : c < COLS ∧ r < ROWS := by
  rw [openCellB, Bool.and_eq_true, Bool.and_eq_true] at h
  exact ⟨of_decide_eq_true h.1.1, of_decide_eq_true h.1.2⟩

/-- Adjacent in-grid cells occur among the neighbors. -/
theorem adj_mem_nbrs (c r c2 r2 : ℕ) (h : adjB c r c2 r2 = true)
    (hc : c2 < COLS) (hr : r2 < ROWS) : (c2, r2) ∈ nbrsOf c r := by
  have hbase : (c2, r2) ∈ ((c + 1, r) :: (c - 1, r) :: (c, r + 1) :: (c, r - 1) :: []) := by
    have h2 := h
    simp only [adjB, Bool.or_eq_true, Bool.and_eq_true, beq_iff_eq, Nat.add_eq] at h2
    simp only [List.mem_cons, List.not_mem_nil, or_false, Prod.mk.injEq]
    omega
  rw [nbrsOf, List.mem_filter]
  exact ⟨hbase, by simp [h, hc, hr]⟩

/-- The bottom chamber (rows 25..29) is closed under open adjacency. -/
theorem seal_prop (c r : ℕ) (hopen : openCellB c r = true) (h25 : 25 ≤ r) (h29 : r ≤ 29) :
    ∀ q ∈ nbrsOf c r, openCellB q.1 q.2 = true → 25 ≤ q.2 ∧ q.2 ≤ 29 := by
  intro q hq hq2
  have hc : c < COLS := (open_bounds c r hopen).1
  have hr : r < ROWS := (open_bounds c r hopen).2
  have hseal : sealOk = true := by decide
  rw [sealOk, List.all_eq_true] at hseal
  have h1 := hseal r (List.mem_range.2 hr)
  rw [List.all_eq_true] at h1
  have h2 := h1 c (List.mem_range.2 hc)
  rw [Bool.or_eq_true] at h2
  rcases h2 with h3 | h3
  · rw [Bool.not_eq_true'] at h3
    simp [hopen, h25, h29] at h3
  · rw [List.all_eq_true] at h3
    have h4 := h3 q hq
    rw [Bool.or_eq_true] at h4
    rcases h4 with h5 | h5
    · rw [Bool.not_eq_true'] at h5
      rw [h5] at hq2
      exact absurd hq2 (by simp)
    · rw [Bool.and_eq_true] at h5
      exact ⟨of_decide_eq_true h5.1, of_decide_eq_true h5.2⟩

/-- Everything reachable from the start cell is an open cell of the bottom
chamber (rows 25..29): the rest of the maze is sealed off from the player
start by the all-wall row 24. -/
theorem reach_rows (c r : ℕ) (h : Reach c r) : openCellB c r = true ∧ 25 ≤ r ∧ r ≤ 29 := by
  induction h with
  | start => exact ⟨by decide, by omega, by omega⟩
  | step c r c2 r2 hR hadj hopen ih =>
      refine ⟨hopen, ?_⟩
      obtain ⟨hopen1, h25, h29⟩ := ih
      obtain ⟨hc2, hr2⟩ := open_bounds c2 r2 hopen
      exact seal_prop c r hopen1 h25 h29 (c2, r2) (adj_mem_nbrs c r c2 r2 hadj hc2 hr2) hopen

/-- Soundness of the layer certificate: if each layer consists of open cells
adjacent to the previous one, every cell of every layer is reachable. -/
theorem chain_sound (layers : List (List (ℕ × ℕ))) : ∀ (prev : List (ℕ × ℕ)),
    (∀ p ∈ prev, Reach p.1 p.2) → chainOk prev layers = true →
    ∀ q ∈ layers.flatten, Reach q.1 q.2 := by
  induction layers with
  | nil => intro prev _ _ q hq; simp at hq
  | cons layer rest ih =>
      intro prev hprev hok q hq
      rw [chainOk, Bool.and_eq_true] at hok
      have hlayer : ∀ q ∈ layer, Reach q.1 q.2 := by
        intro q2 hq2
        have h1 := List.all_eq_true.1 hok.1 q2 hq2
        rw [Bool.and_eq_true] at h1
        obtain ⟨hopen, hany⟩ := h1
        obtain ⟨p, hp, hadj⟩ := List.any_eq_true.1 hany
        exact Reach.step p.1 p.2 q2.1 q2.2 (hprev p hp) hadj hopen
      rw [List.flatten_cons] at hq
      rcases List.mem_append.1 hq with h | h
      · exact hlayer q h
      · exact ih layer hlayer hok.2 q h

/-- Every cell of the certificate list is reachable. -/
theorem reach_cells_reach : ∀ q ∈ reachCells, Reach q.1 q.2 := by
  intro q hq
  rcases List.mem_cons.1 hq with he | hr
  · rw [he]
    exact Reach.start
  · refine chain_sound reachLayers [(14, 29)] ?_ (by decide) q hr
    intro p hp
    rw [List.mem_singleton] at hp
    rw [hp]
    exact Reach.start

/-! ## Claim theorems -/

/-- Claim C3 (code bug): the candidate-direction rule is claimed to exclude
the reverse of the current direction unless every other direction is blocked,
and the source's own comment says "avoid reversing unless no other option";
but the `len(options) == 0` test is taken at the moment the reverse direction
is examined, so iteration order leaks in.  Failing input: a ghost at open
cell `(2, 1)` moving left, with both horizontal neighbors open: the computed
candidate set is `[(1, 0), (-1, 0)]`, which contains the reverse `(1, 0)` of
the current direction `(-1, 0)` even though the distinct open direction
`(-1, 0)` is available. -/
theorem c3_reverse_in_candidates_bug :
    ghostOptions { ghostAt 2 1 Mode.normal with dir := (-1, 0) } = [(1, 0), (-1, 0)] ∧
    ((1 : ℤ), (0 : ℤ)) =
      (-{ ghostAt 2 1 Mode.normal with dir := (-1, 0) }.dir.1,
       -{ ghostAt 2 1 Mode.normal with dir := (-1, 0) }.dir.2) ∧
    is_wall (2 + -1) (1 + 0) = false ∧ is_wall (2 + 1) (1 + 0) = false := by decide

set_option maxRecDepth 8000 in
/-- Counterexample to claim C5: the shipped maze itself is malformed — rows
6 and 21 have 29 characters while `COLS = 28` — yet `load_dots` happily
loads it (305 dots and 34 power pellets) instead of rejecting it. -/
theorem c5_nonrect_loaded_cx :
    rowsRectangular = false ∧ (mazeRows.getD 6 []).length = 29 ∧ COLS = 28 ∧
    load_dots.1.length = 305 ∧ load_dots.2.length = 34 := by decide

set_option maxRecDepth 8000 in
/-- Claim C5 as amended: no load-time validation exists.  A non-rectangular
maze (the shipped one) is accepted and used by the simulation; every row is
at least `COLS` long, so the column-bounded accesses of the game never leave
a row, and loading succeeds. -/
theorem c5_malformed_accepted :
    rowsRectangular = false ∧
    mazeRows.all (fun row => decide (COLS ≤ row.length)) = true ∧
    ROWS = 31 ∧ load_dots.1.length = 305 ∧ load_dots.2.length = 34 := by decide

/-- Counterexample to claim C4: the border cell `(0, 10)` (and five others)
is a corridor character `0`, not a Wall; and the corridor cell `(21, 3)` is
not reachable from the player start cell. -/
theorem c4_border_corridor_cx :
    mazeCharN 0 10 = '0' ∧ mazeCharN 0 10 ≠ '1' ∧
    corridorB 21 3 = true ∧ ¬ Reach 21 3 := by
  refine ⟨by decide, by decide, by decide, fun h => ?_⟩
  have h2 := (reach_rows 21 3 h).2.1
  omega

/-- Claim C4 as amended: the outer border is Wall except the six cells of
`borderExceptions` (which are corridor cells); the player start cell is
`(14, 29)`; and connectivity fails badly: a corridor cell of the grid is
reachable from the start cell (through non-wall cells) exactly when it lies
in rows 25..29 — the bottom chamber, which row 24 (all walls) seals off from
the rest of the maze. -/
theorem c4_maze_invariant :
    borderWallOk = true ∧
    borderExceptions.all (fun q => corridorB q.1 q.2) = true ∧
    player_spawn = (14, 29) ∧
    (∀ c r : ℕ, c < COLS → r < ROWS → corridorB c r = true → 25 ≤ r → r ≤ 29 → Reach c r) ∧
    (∀ c r : ℕ, Reach c r → openCellB c r = true ∧ 25 ≤ r ∧ r ≤ 29) := by
  refine ⟨by decide, by decide, by decide, ?_, fun c r h => reach_rows c r h⟩
  intro c r hc hr hcor h25 h29
  have hcov : coverageOk = true := by decide
  rw [coverageOk, List.all_eq_true] at hcov
  have h1 := hcov r (List.mem_range.2 hr)
  rw [List.all_eq_true] at h1
  have h2 := h1 c (List.mem_range.2 hc)
  rw [Bool.or_eq_true] at h2
  rcases h2 with h3 | h3
  · rw [Bool.not_eq_true'] at h3
    simp [hcor, h25, h29] at h3
  · obtain ⟨p, hp, hpq⟩ := List.any_eq_true.1 h3
    rw [Bool.and_eq_true, beq_iff_eq, beq_iff_eq] at hpq
    have hpe : p = (c, r) := by
      obtain ⟨a, b⟩ := p
      simp only at hpq
      rw [hpq.1, hpq.2]
    have hre := reach_cells_reach p hp
    rw [hpe] at hre
    exact hre

/-- Witness for C4: a concrete corridor cell of the bottom chamber,
`(1, 27)`, is reachable. -/
theorem c4_maze_invariant_w : Reach 1 27 :=
  c4_maze_invariant.2.2.2.1 1 27 (by decide) (by decide) (by decide) (by decide) (by decide)

unseal Rat.mul Rat.add Rat.sub Rat.inv Rat.ofScientific

/-- Claim C7 (confirmed): within `Ghost.update`, an eyes-mode pursuer goes
back to Normal exactly when, after the move of this update, its discrete
cell equals its home cell; at that moment it is placed at its spawn cell
(not the home cell) and snapped to that cell's center. -/
theorem c7_eyes_home_respawn (pick : List (ℤ × ℤ) → ℤ × ℤ) (dt : ℚ) (pac : Pacman) (g : Ghost)
    (h : g.mode = Mode.eyes) :
    ((ghostUpdate pick dt pac g).mode = Mode.normal ↔
      ((move_towards dt g.home g).col, (move_towards dt g.home g).row) = g.home) ∧
    (((move_towards dt g.home g).col, (move_towards dt g.home g).row) = g.home →
      ((ghostUpdate pick dt pac g).col, (ghostUpdate pick dt pac g).row) = g.spawn ∧
      (ghostUpdate pick dt pac g).x = ((grid_to_world g.spawn.1 g.spawn.2).1 : ℚ) ∧
      (ghostUpdate pick dt pac g).y = ((grid_to_world g.spawn.1 g.spawn.2).2 : ℚ)) := by
  have hmode : (move_towards dt g.home g).mode = g.mode := rfl
  rw [ghostUpdate, if_pos h]
  by_cases h2 : ((move_towards dt g.home g).col, (move_towards dt g.home g).row) = g.home
  · rw [if_pos h2]
    exact ⟨⟨fun _ => h2, fun _ => rfl⟩, fun _ => ⟨rfl, rfl, rfl⟩⟩
  · rw [if_neg h2]
    refine ⟨⟨fun hcon => ?_, fun hcon => absurd hcon h2⟩, fun hcon => absurd hcon h2⟩
    rw [hmode, h] at hcon
    exact absurd hcon (by decide)

/-- Witness for C7: an eyes ghost standing at its home cell `(12, 6)`
respawns at its spawn cell in Normal mode. -/
theorem c7_eyes_home_respawn_w :
    (ghostUpdate pick0 0 (pacAt 1 1) (ghostAt 12 6 Mode.eyes)).mode = Mode.normal ∧
    ((ghostUpdate pick0 0 (pacAt 1 1) (ghostAt 12 6 Mode.eyes)).col,
     (ghostUpdate pick0 0 (pacAt 1 1) (ghostAt 12 6 Mode.eyes)).row) = (12, 6) := by
  have h := c7_eyes_home_respawn pick0 0 (pacAt 1 1) (ghostAt 12 6 Mode.eyes) rfl
  exact ⟨h.1.mpr (by decide), (h.2 (by decide)).1⟩

/-- Claim C9 (confirmed): for nonnegative `dt` and a nonnegative timer, one
player update leaves the power timer at `max 0 (timer - dt)` (never
negative), and consuming a power pickup sets the timer to `POWER_DURATION`,
replacing any remaining time. -/
theorem c9_power_timer (dt : ℚ) (p : Pacman) (dots power : List (ℤ × ℤ))
    (hdt : 0 ≤ dt) (ht : 0 ≤ p.power_timer) :
    (pacUpdate dt p).power_timer = max 0 (p.power_timer - dt) ∧
    0 ≤ (pacUpdate dt p).power_timer ∧
    ((p.col, p.row) ∈ power →
      (handle_pacman_eats p dots power).pac.power_timer = POWER_DURATION) := by
  have h1 : (pacUpdate dt p).power_timer =
      if 0 < p.power_timer then max 0 (p.power_timer - dt) else p.power_timer := rfl
  have h2 : (pacUpdate dt p).power_timer = max 0 (p.power_timer - dt) := by
    rw [h1]
    split
    · rfl
    · next hns =>
        have h0 : p.power_timer = 0 := le_antisymm (not_lt.1 hns) ht
        rw [h0, max_eq_left (by linarith)]
  refine ⟨h2, by rw [h2]; exact le_max_left 0 _, ?_⟩
  intro hmem
  have hd : decide ((p.col, p.row) ∈ power) = true := decide_eq_true hmem
  simp [handle_pacman_eats, hd]

/-- Witness for C9: with timer 3 and `dt = 1` the timer becomes 2, and a
player standing on a power pickup gets the full duration. -/
theorem c9_power_timer_w :
    (pacUpdate 1 { pacAt 1 1 with power_timer := 3 }).power_timer = max 0 ((3 : ℚ) - 1) ∧
    (handle_pacman_eats (pacAt 1 1) [] [(1, 1)]).pac.power_timer = POWER_DURATION := by
  refine ⟨(c9_power_timer 1 { pacAt 1 1 with power_timer := 3 } [] []
    (by decide) (by decide)).1, ?_⟩
  exact (c9_power_timer 1 (pacAt 1 1) [] [(1, 1)] (by decide) (by decide)).2.2 (by decide)

/-- Claim C10 (confirmed): whatever rectangle is tested, if the eyes-mode
collision test reports blocking then so does the normal test; per cell, the
difference between the two blocking conditions is exactly the door cells. -/
theorem c10_eyes_blocks_subset :
    (∀ rc : PRect, hits_wall_eyes rc = true → hits_wall rc = true) ∧ doorDiffOk = true := by
  constructor
  · intro rc h
    rw [hits_wall_eyes, List.any_eq_true] at h
    obtain ⟨cell, hmem, hpred⟩ := h
    rw [Bool.and_eq_true] at hpred
    rw [hits_wall, List.any_eq_true]
    refine ⟨cell, hmem, ?_⟩
    rw [Bool.and_eq_true]
    refine ⟨?_, hpred.2⟩
    rw [blocksNormal, Bool.or_eq_true]
    exact Or.inl (by rw [blocksEyes] at hpred; exact hpred.1)
  · decide

/-- Witness for C10: the rectangle of the wall cell `(0, 0)` blocks the
eyes test, hence also the normal test. -/
theorem c10_eyes_blocks_subset_w :
    hits_wall (rect_for_cell 0 0) = true :=
  c10_eyes_blocks_subset.1 (rect_for_cell 0 0) (by decide)

/-- Claim C1 as amended: when a Normal pursuer collides with the player, the
player loses exactly one life; every pursuer is reset to its spawn cell,
centered there, with direction cleared and mode Normal; the player's
directions are cleared and it is snapped to the center of its CURRENT cell —
its cell is not changed to the start cell. -/
theorem c1_normal_collision_reset (p : Pacman) (gs : List Ghost) (go : Bool)
    (h : Mode.normal ∈ hitModes (collisionPairs p gs)) :
    (resolveCollisions p gs go).pac.lives = p.lives - 1 ∧
    (resolveCollisions p gs go).pac.col = p.col ∧
    (resolveCollisions p gs go).pac.row = p.row ∧
    (resolveCollisions p gs go).pac.dir = (0, 0) ∧
    (resolveCollisions p gs go).pac.target_dir = (0, 0) ∧
    (resolveCollisions p gs go).pac.x = ((grid_to_world p.col p.row).1 : ℚ) ∧
    (resolveCollisions p gs go).pac.y = ((grid_to_world p.col p.row).2 : ℚ) ∧
    (resolveCollisions p gs go).ghosts = gs.map resetGhost ∧
    ∀ g ∈ gs, (resetGhost g).mode = Mode.normal ∧ (resetGhost g).col = g.spawn.1 ∧
      (resetGhost g).row = g.spawn.2 ∧ (resetGhost g).dir = (0, 0) ∧
      (resetGhost g).x = ((grid_to_world g.spawn.1 g.spawn.2).1 : ℚ) ∧
      (resetGhost g).y = ((grid_to_world g.spawn.1 g.spawn.2).2 : ℚ) := by
  have hr := hitLoop_reset (collisionPairs p gs) p gs go (collisionPairs_valid p gs) h
  have hl := hitLoop_lives (collisionPairs p gs) p gs go
  rw [if_pos h] at hl
  exact ⟨hl, hr.2.1, hr.2.2.1, hr.2.2.2.1, hr.2.2.2.2.1, hr.2.2.2.2.2.1, hr.2.2.2.2.2.2,
    hr.1, fun g _ => ⟨rfl, rfl, rfl, rfl, rfl, rfl⟩⟩

/-- Witness for C1: a concrete Normal-pursuer collision at cell `(1, 1)`
costs one life and resets the ghosts. -/
theorem c1_normal_collision_reset_w :
    (resolveCollisions (pacAt 1 1) [ghostAt 1 1 Mode.normal] false).pac.lives =
      START_LIVES - 1 ∧
    (resolveCollisions (pacAt 1 1) [ghostAt 1 1 Mode.normal] false).ghosts =
      [ghostAt 1 1 Mode.normal].map resetGhost := by
  have h := c1_normal_collision_reset (pacAt 1 1) [ghostAt 1 1 Mode.normal] false (by decide)
  exact ⟨h.1, h.2.2.2.2.2.2.2.1⟩

/-- Counterexample to claim C1: after a Normal-pursuer collision at cell
`(1, 1)` the player's cell is still `(1, 1)`, not the start cell
`player_spawn = (14, 29)` — the player is merely centered where it stands. -/
theorem c1_player_not_respawned_cx :
    colliderect (pacRect (pacAt 1 1)) (ghostRect (ghostAt 1 1 Mode.normal)) = true ∧
    (ghostAt 1 1 Mode.normal).mode = Mode.normal ∧
    ((resolveCollisions (pacAt 1 1) [ghostAt 1 1 Mode.normal] false).pac.col,
     (resolveCollisions (pacAt 1 1) [ghostAt 1 1 Mode.normal] false).pac.row) = (1, 1) ∧
    player_spawn = (14, 29) ∧
    ((1 : ℤ), (1 : ℤ)) ≠ player_spawn := by decide

/-- Claim C6 as amended: collision processing walks the colliding pursuers
in creation order; lives drop by exactly 1 when some colliding pursuer is
Normal and are untouched otherwise; the score grows by exactly
`GHOST_SCORE` per Vulnerable pursuer processed before the first Normal one;
and when no colliding pursuer is Normal, every colliding Vulnerable pursuer
is set to Eyes.  (A Vulnerable collision behind a Normal one in the same
tick is not processed — the source `break`s after the reset.) -/
theorem c6_collision_outcomes (p : Pacman) (gs : List Ghost) (go : Bool) :
    (resolveCollisions p gs go).pac.lives =
      (if Mode.normal ∈ hitModes (collisionPairs p gs) then p.lives - 1 else p.lives) ∧
    (resolveCollisions p gs go).pac.score =
      p.score + GHOST_SCORE * (capCount (hitModes (collisionPairs p gs)) : ℤ) ∧
    (Mode.normal ∉ hitModes (collisionPairs p gs) →
      ∀ ig ∈ collisionPairs p gs, ig.2.mode = Mode.vulnerable →
        (resolveCollisions p gs go).ghosts[ig.1]? = some (set_eyes ig.2)) :=
  ⟨hitLoop_lives (collisionPairs p gs) p gs go,
   hitLoop_score (collisionPairs p gs) p gs go,
   fun hn ig hig hv =>
     hitLoop_eyes_set (collisionPairs p gs) p gs go (collisionPairs_valid p gs) hn ig hig hv⟩

/-- Witness for C6: a lone colliding Vulnerable pursuer becomes Eyes and
lives are untouched. -/
theorem c6_collision_outcomes_w :
    (resolveCollisions (pacAt 1 1) [ghostAt 1 1 Mode.vulnerable] false).ghosts[0]? =
      some (set_eyes (ghostAt 1 1 Mode.vulnerable)) ∧
    (resolveCollisions (pacAt 1 1) [ghostAt 1 1 Mode.vulnerable] false).pac.lives =
      START_LIVES := by
  have h := c6_collision_outcomes (pacAt 1 1) [ghostAt 1 1 Mode.vulnerable] false
  refine ⟨h.2.2 (by decide) (0, ghostAt 1 1 Mode.vulnerable) (by decide) rfl, ?_⟩
  rw [h.1]
  decide

/-- Counterexample to claim C6: with a Normal pursuer first and a Vulnerable
pursuer second, both colliding, the Vulnerable one is NOT set to Eyes (it
ends Normal at spawn, via the global reset) and the score does not increase. -/
theorem c6_vuln_after_normal_cx :
    colliderect (pacRect (pacAt 1 1)) (ghostRect (ghostAt 1 1 Mode.vulnerable)) = true ∧
    (resolveCollisions (pacAt 1 1) [ghostAt 1 1 Mode.normal, ghostAt 1 1 Mode.vulnerable]
        false).ghosts.map (fun g => g.mode) = [Mode.normal, Mode.normal] ∧
    (resolveCollisions (pacAt 1 1) [ghostAt 1 1 Mode.normal, ghostAt 1 1 Mode.vulnerable]
        false).pac.score = 0 := by decide

/-- Claim C2 as amended: consuming a power pickup sets the timer to the full
(positive) duration and so always triggers the vulnerability broadcast; but
the broadcast guard is merely "ate something and the timer is positive
afterwards", so a STANDARD pickup eaten while a power window is still active
also broadcasts.  The broadcast maps `set_vulnerable` over all pursuers,
which sends every pursuer not already in Eyes to Vulnerable and leaves Eyes
pursuers alone. -/
theorem c2_vulnerable_broadcast (p : Pacman) (dots power : List (ℤ × ℤ)) (gs : List Ghost) :
    ((p.col, p.row) ∈ power → (handle_pacman_eats p dots power).ate = true ∧
       (handle_pacman_eats p dots power).pac.power_timer = POWER_DURATION) ∧
    ((p.col, p.row) ∉ power →
       (handle_pacman_eats p dots power).pac.power_timer = p.power_timer) ∧
    ((handle_pacman_eats p dots power).ate = true ∧
        0 < (handle_pacman_eats p dots power).pac.power_timer →
       (eatsBroadcast p dots power gs).2 = gs.map set_vulnerable) ∧
    (¬ ((handle_pacman_eats p dots power).ate = true ∧
        0 < (handle_pacman_eats p dots power).pac.power_timer) →
       (eatsBroadcast p dots power gs).2 = gs) ∧
    (∀ g : Ghost, (set_vulnerable g).mode =
       if g.mode = Mode.eyes then Mode.eyes else Mode.vulnerable) := by
  refine ⟨?_, ?_, ?_, ?_, ?_⟩
  · intro hmem
    have hd : decide ((p.col, p.row) ∈ power) = true := decide_eq_true hmem
    constructor
    · simp [handle_pacman_eats, hd]
    · simp [handle_pacman_eats, hd]
  · intro hmem
    have hd : decide ((p.col, p.row) ∈ power) = false := decide_eq_false hmem
    cases hb : decide ((p.col, p.row) ∈ dots) <;> simp [handle_pacman_eats, hd, hb]
  · intro hc
    have h1 : ((handle_pacman_eats p dots power).ate &&
        decide (0 < (handle_pacman_eats p dots power).pac.power_timer)) = true := by
      rw [Bool.and_eq_true]
      exact ⟨hc.1, decide_eq_true hc.2⟩
    simp only [eatsBroadcast, h1, if_true]
  · intro hc
    have h1 : ((handle_pacman_eats p dots power).ate &&
        decide (0 < (handle_pacman_eats p dots power).pac.power_timer)) = false := by
      rw [Bool.and_eq_false_iff]
      by_cases ha : (handle_pacman_eats p dots power).ate = true
      · right
        rw [decide_eq_false]
        intro h0
        exact hc ⟨ha, h0⟩
      · left
        simp [ha]
    simp only [eatsBroadcast, h1]
    rfl
  · intro g
    rw [set_vulnerable]
    split
    · next he => rw [he]
    · rfl

/-- Witness for C2: a player standing on a power pickup triggers the
broadcast, and `set_vulnerable` turns a Normal pursuer Vulnerable. -/
theorem c2_vulnerable_broadcast_w :
    (eatsBroadcast (pacAt 1 1) [] [(1, 1)] [ghostAt 5 5 Mode.normal]).2 =
      [ghostAt 5 5 Mode.normal].map set_vulnerable ∧
    (set_vulnerable (ghostAt 5 5 Mode.normal)).mode = Mode.vulnerable := by
  have h := c2_vulnerable_broadcast (pacAt 1 1) [] [(1, 1)] [ghostAt 5 5 Mode.normal]
  have h1 := h.1 (by decide)
  refine ⟨h.2.2.1 ⟨h1.1, ?_⟩, by decide⟩
  rw [h1.2]
  decide

/-- Counterexample to claim C2: the power-pickup set is EMPTY (so no power
pickup can be consumed), the player eats a standard dot while its power
timer is still positive, and a Normal pursuer nevertheless transitions to
Vulnerable. -/
theorem c2_dot_broadcast_cx :
    (ghostAt 5 5 Mode.normal).mode = Mode.normal ∧
    ((pacAt 1 1).col, (pacAt 1 1).row) ∉ ([] : List (ℤ × ℤ)) ∧
    (eatsBroadcast { pacAt 1 1 with power_timer := 5 } [(1, 1)] []
        [ghostAt 5 5 Mode.normal]).2.map (fun g => g.mode) = [Mode.vulnerable] := by decide

/-- One player update does not change lives. -/
theorem pacUpdate_lives (dt : ℚ) (p : Pacman) : (pacUpdate dt p).lives = p.lives := rfl

/-- Eating pickups does not change lives. -/
theorem eats_lives (p : Pacman) (dots power : List (ℤ × ℤ)) :
    (handle_pacman_eats p dots power).pac.lives = p.lives := by
  cases hd : decide ((p.col, p.row) ∈ dots) <;> cases hp : decide ((p.col, p.row) ∈ power) <;>
    simp [handle_pacman_eats, hd, hp]

/-- Claim C8 (confirmed): a terminal state (game over or win) is returned
unchanged by `tick` — no motion, pickup consumption, mode transition or
collision processing happens — and for an active state the tick ends in Win
exactly when both pickup sets are empty afterwards, and in Game Over exactly
when the lives counter has reached zero. -/
theorem c8_terminal_freeze_win (pick : List (ℤ × ℤ) → ℤ × ℤ) (dt : ℚ) (s : Game) :
    (s.game_over = true ∨ s.win = true → tick pick dt s = s) ∧
    (s.game_over = false → s.win = false →
      ((tick pick dt s).win = true ↔ (tick pick dt s).dots = [] ∧ (tick pick dt s).power = []) ∧
      (0 < s.pac.lives →
        ((tick pick dt s).game_over = true ↔ (tick pick dt s).pac.lives ≤ 0))) := by
  constructor
  · intro h
    rcases h with h | h <;> simp [tick, h]
  · intro hgo hwin
    have hcond : (s.game_over || s.win) = false := by simp [hgo, hwin]
    constructor
    · simp only [tick, hcond, Bool.false_eq_true, if_false]
      by_cases hA : (eatsBroadcast (pacUpdate dt s.pac) s.dots s.power s.ghosts).1.dots.length +
          (eatsBroadcast (pacUpdate dt s.pac) s.dots s.power s.ghosts).1.power.length = 0
      · simp only [hA, if_pos, hwin]
        constructor
        · intro _
          exact ⟨List.length_eq_zero.1 (by omega), List.length_eq_zero.1 (by omega)⟩
        · intro _
          trivial
      · rw [if_neg hA, hwin]
        constructor
        · intro hcon
          exact absurd hcon (by simp)
        · intro hcon
          exact absurd (by simp [hcon.1, hcon.2]) hA
    · intro hpos
      simp only [tick, hcond, Bool.false_eq_true, if_false]
      simp only [resolveCollisions]
      rw [hitLoop_go, hitLoop_lives]
      have hPl : (eatsBroadcast (pacUpdate dt s.pac) s.dots s.power s.ghosts).1.pac.lives =
          s.pac.lives := by
        rw [show (eatsBroadcast (pacUpdate dt s.pac) s.dots s.power s.ghosts).1 =
          handle_pacman_eats (pacUpdate dt s.pac) s.dots s.power from rfl]
        rw [eats_lives, pacUpdate_lives]
      rw [hPl, hgo]
      by_cases hM : Mode.normal ∈ hitModes (collisionPairs
          (eatsBroadcast (pacUpdate dt s.pac) s.dots s.power s.ghosts).1.pac
          (if (eatsBroadcast (pacUpdate dt s.pac) s.dots s.power s.ghosts).1.pac.power_timer = 0
           then ((eatsBroadcast (pacUpdate dt s.pac) s.dots s.power s.ghosts).2.map
                  (ghostUpdate pick dt
                    (eatsBroadcast (pacUpdate dt s.pac) s.dots s.power s.ghosts).1.pac)).map
                  unVulnerable
           else (eatsBroadcast (pacUpdate dt s.pac) s.dots s.power s.ghosts).2.map
                  (ghostUpdate pick dt
                    (eatsBroadcast (pacUpdate dt s.pac) s.dots s.power s.ghosts).1.pac))) <;>
        simp only [hM, if_pos, if_neg, if_true, if_false]
      · by_cases hL : s.pac.lives - 1 ≤ 0 <;> simp [hL]
      · simp
        omega

/-- Witness for C8: a concrete already-won state is frozen by `tick`, and a
concrete active state with empty pickup sets transitions to Win. -/
theorem c8_terminal_freeze_win_w :
    tick pick0 1 { pac := pacAt 1 1, ghosts := [], dots := [(1, 2)], power := [],
                   game_over := false, win := true } =
      { pac := pacAt 1 1, ghosts := [], dots := [(1, 2)], power := [],
        game_over := false, win := true } ∧
    (tick pick0 1 { pac := pacAt 1 1, ghosts := [], dots := [], power := [],
                    game_over := false, win := false }).win = true := by
  constructor
  · exact (c8_terminal_freeze_win pick0 1 _).1 (Or.inr rfl)
  · exact ((c8_terminal_freeze_win pick0 1 _).2 rfl rfl).1.mpr ⟨by decide, by decide⟩
